import Mathlib

/-!
Verification of the image-server signed-URL service (`main.go`).

The development shallowly embeds the Go source: bytes are `Nat` values below
256, 32-bit machine arithmetic is `Nat` arithmetic reduced modulo `2 ^ 32`,
SHA-256 and HMAC-SHA256 are implemented in full (matching `crypto/sha256` and
`crypto/hmac`), `strconv.ParseInt` and `fmt.Sprintf`-style decimal rendering
are modelled exactly, and the four gin handlers are modelled as functions on an
explicit filesystem state with injected I/O fault flags.
-/

namespace ImageServer

/-! ## 32-bit words as natural numbers -/

def M32 : Nat := 4294967296

def add32 (a b : Nat) : Nat := (a + b) % M32

def rotr32 (k n : Nat) : Nat := ((n >>> k) ||| (n <<< (32 - k))) % M32

def bigSigma0 (x : Nat) : Nat := (rotr32 2 x) ^^^ (rotr32 13 x) ^^^ (rotr32 22 x)

def bigSigma1 (x : Nat) : Nat := (rotr32 6 x) ^^^ (rotr32 11 x) ^^^ (rotr32 25 x)

def smallSigma0 (x : Nat) : Nat := (rotr32 7 x) ^^^ (rotr32 18 x) ^^^ (x >>> 3)

def smallSigma1 (x : Nat) : Nat := (rotr32 17 x) ^^^ (rotr32 19 x) ^^^ (x >>> 10)

def chOp (x y z : Nat) : Nat := (x &&& y) ^^^ ((x ^^^ 4294967295) &&& z)

def majOp (x y z : Nat) : Nat := (x &&& y) ^^^ (x &&& z) ^^^ (y &&& z)

/-! ## SHA-256 (`crypto/sha256`) -/

def K256 : List Nat :=
  [1116352408, 1899447441, 3049323471, 3921009573, 961987163, 1508970993,
   2453635748, 2870763221, 3624381080, 310598401, 607225278, 1426881987,
   1925078388, 2162078206, 2614888103, 3248222580, 3835390401, 4022224774,
   264347078, 604807628, 770255983, 1249150122, 1555081692, 1996064986,
   2554220882, 2821834349, 2952996808, 3210313671, 3336571891, 3584528711,
   113926993, 338241895, 666307205, 773529912, 1294757372, 1396182291,
   1695183700, 1986661051, 2177026350, 2456956037, 2730485921, 2820302411,
   3259730800, 3345764771, 3516065817, 3600352804, 4094571909, 275423344,
   430227734, 506948616, 659060556, 883997877, 958139571, 1322822218,
   1537002063, 1747873779, 1955562222, 2024104815, 2227730452, 2361852424,
   2428436474, 2756734187, 3204031479, 3329325298]

/-- Big-endian 8-byte rendering of a 64-bit length field. -/
def be64 (n : Nat) : List Nat :=
  [(n >>> 56) % 256, (n >>> 48) % 256, (n >>> 40) % 256, (n >>> 32) % 256,
   (n >>> 24) % 256, (n >>> 16) % 256, (n >>> 8) % 256, n % 256]

/-- Big-endian 4-byte rendering of a 32-bit word. -/
def be32 (n : Nat) : List Nat :=
  [(n >>> 24) % 256, (n >>> 16) % 256, (n >>> 8) % 256, n % 256]

/-- SHA-256 padding: append `0x80`, zero bytes to 56 mod 64, then the
bit length as a big-endian 64-bit integer. -/
def sha256Pad (msg : List Nat) : List Nat :=
  msg ++ [128] ++ List.replicate ((119 - msg.length % 64) % 64) 0 ++ be64 (8 * msg.length)

/-- Group bytes into big-endian 32-bit words. -/
def toWords : List Nat → List Nat
  | b0 :: b1 :: b2 :: b3 :: rest =>
    (((b0 * 256 + b1) * 256 + b2) * 256 + b3) :: toWords rest
  | _ => []

/-- Split a word list into 16-word blocks; the fuel bounds the recursion and
is instantiated with the list length. -/
def toBlocksFuel : Nat → List Nat → List (List Nat)
  | 0, _ => []
  | fuel + 1, ws =>
    if ws = [] then [] else ws.take 16 :: toBlocksFuel fuel (ws.drop 16)

/-- Extend the message schedule; `wrev` holds the words produced so far, most
recent first. -/
def schedExt : Nat → List Nat → List Nat
  | 0, wrev => wrev
  | n + 1, wrev =>
    let nw := add32 (add32 (wrev.getD 15 0) (smallSigma0 (wrev.getD 14 0)))
                    (add32 (wrev.getD 6 0) (smallSigma1 (wrev.getD 1 0)))
    schedExt n (nw :: wrev)

def schedule (block : List Nat) : List Nat := (schedExt 48 block.reverse).reverse

structure Hash8 where
  a : Nat
  b : Nat
  c : Nat
  d : Nat
  e : Nat
  f : Nat
  g : Nat
  hh : Nat

def compressStep (st : Hash8) (kw : Nat × Nat) : Hash8 :=
  let t1 := add32 st.hh (add32 (bigSigma1 st.e) (add32 (chOp st.e st.f st.g) (add32 kw.1 kw.2)))
  let t2 := add32 (bigSigma0 st.a) (majOp st.a st.b st.c)
  ⟨add32 t1 t2, st.a, st.b, st.c, add32 st.d t1, st.e, st.f, st.g⟩

def compressBlock (st : Hash8) (block : List Nat) : Hash8 :=
  let fin := (K256.zip (schedule block)).foldl compressStep st
  ⟨add32 fin.a st.a, add32 fin.b st.b, add32 fin.c st.c, add32 fin.d st.d,
   add32 fin.e st.e, add32 fin.f st.f, add32 fin.g st.g, add32 fin.hh st.hh⟩

/-- SHA-256 of a byte list, as a 32-byte list. -/
def sha256 (msg : List Nat) : List Nat :=
  let ws := toWords (sha256Pad msg)
  let blocks := toBlocksFuel ws.length ws
  let st := blocks.foldl compressBlock
    ⟨1779033703, 3144134277,
     1013904242, 2773480762,
     1359893119, 2600822924,
     528734635, 1541459225⟩
  be32 st.a ++ be32 st.b ++ be32 st.c ++ be32 st.d ++
  be32 st.e ++ be32 st.f ++ be32 st.g ++ be32 st.hh

/-! ## HMAC-SHA256 (`crypto/hmac`) -/

/-- HMAC-SHA256 with a 64-byte block size, exactly as `crypto/hmac` composes
it: keys longer than one block are first hashed, the key is zero-padded to the
block size, and the digest is `H((k ^ opad) ++ H((k ^ ipad) ++ msg))`. -/
def hmacSha256 (key msg : List Nat) : List Nat :=
  let k0 := if 64 < key.length then sha256 key else key
  let kp := k0 ++ List.replicate (64 - k0.length) 0
  let ipadded := kp.map (fun b => b ^^^ 54)
  let opadded := kp.map (fun b => b ^^^ 92)
  sha256 (opadded ++ sha256 (ipadded ++ msg))

/-! ## Hex encoding (`encoding/hex`) and UTF-8 bytes of a string -/

def hexDigit (n : Nat) : Char :=
  if n < 10 then Char.ofNat (48 + n) else Char.ofNat (87 + n)

def hexByte (b : Nat) : List Char := [hexDigit (b / 16), hexDigit (b % 16)]

/-- Lowercase hex encoding of a byte list (`hex.EncodeToString`). -/
def hexEncode (bs : List Nat) : String := String.mk (bs.map hexByte).flatten

/-- UTF-8 bytes of one character with code point `n`: the standard one- to
four-byte encoding. -/
def utf8Nat (n : Nat) : List Nat :=
  if n < 128 then [n]
  else if n < 2048 then [192 + n / 64, 128 + n % 64]
  else if n < 65536 then [224 + n / 4096, 128 + (n / 64) % 64, 128 + n % 64]
  else [240 + n / 262144, 128 + (n / 4096) % 64, 128 + (n / 64) % 64, 128 + n % 64]

/-- UTF-8 bytes of one character. -/
def utf8Char (c : Char) : List Nat := utf8Nat c.toNat

/-- UTF-8 byte sequence of a string; this is what Go's `[]byte(s)` yields. -/
def utf8 (s : String) : List Nat := (s.data.map utf8Char).flatten

/-! ## Decimal rendering (`fmt.Sprintf %d`) and parsing (`strconv.ParseInt`) -/

def digitChar (n : Nat) : Char := Char.ofNat (48 + n)

/-- Decimal digits, most significant first; the fuel only bounds the
recursion depth and is sufficient whenever `n < fuel`. -/
def natDigitsFuel : Nat → Nat → List Char
  | 0, _ => []
  | fuel + 1, n =>
    if n < 10 then [digitChar n]
    else natDigitsFuel fuel (n / 10) ++ [digitChar (n % 10)]

/-- Decimal digits of a natural number, most significant first. -/
def natDigits (n : Nat) : List Char := natDigitsFuel (n + 1) n

def natDec (n : Nat) : String := String.mk (natDigits n)

/-- Standard decimal rendering of an integer, as produced by Go's `%d` verb:
a minus sign for negative values, plain digits otherwise. -/
def intDec (i : Int) : String :=
  if i < 0 then "-" ++ natDec i.natAbs else natDec i.toNat

def digitVal (c : Char) : Nat := c.toNat - 48

def fold10 (l : List Char) : Nat := l.foldl (fun a c => 10 * a + digitVal c) 0

/-- Model of `strconv.ParseInt(s, 10, 64)`: an optional `+` or `-` sign
followed by at least one ASCII digit, with the value required to fit in a
signed 64-bit integer; every failure (empty input, stray characters, range
overflow) yields `none`. -/
def parseInt64 (s : String) : Option Int :=
  match s.data with
  | [] => none
  | c :: cs =>
    let ds := if c = '-' ∨ c = '+' then cs else c :: cs
    if ds = [] then none
    else if ds.all Char.isDigit then
      let n := fold10 ds
      if c = '-' then
        if n ≤ 9223372036854775808 then some (-(n : Int)) else none
      else
        if n ≤ 9223372036854775807 then some (n : Int) else none
    else none

/-! ## Constant-time comparison (`crypto/subtle` via `hmac.Equal`) -/

/-- The loop of `subtle.ConstantTimeCompare`, instrumented with a step count:
the first component is the running OR of byte XORs, the second counts the
loop iterations actually executed. -/
def ctLoop : List Nat → List Nat → Nat → Nat × Nat
  | [], _, v => (v, 0)
  | _ :: _, [], v => (v, 0)
  | x :: xs, y :: ys, v =>
    let r := ctLoop xs ys (v ||| (x ^^^ y))
    (r.1, r.2 + 1)

/-- `subtle.ConstantTimeByteEq x y`: `uint32(x ^ y) - 1 >> 31`. -/
def constantTimeByteEq (x y : Nat) : Nat := (((x ^^^ y) + M32 - 1) % M32) >>> 31

/-- `subtle.ConstantTimeCompare`: `0` immediately on length mismatch,
otherwise the OR-accumulating loop over all byte pairs. -/
def constantTimeCompare (x y : List Nat) : Nat :=
  if x.length = y.length then constantTimeByteEq (ctLoop x y 0).1 0 else 0

/-- `hmac.Equal`, which is `subtle.ConstantTimeCompare(...) == 1`. -/
def hmacEqual (x y : List Nat) : Bool := constantTimeCompare x y == 1

/-- Number of comparison-loop iterations performed by the constant-time
compare on the given inputs. -/
def ctSteps (x y : List Nat) : Nat := (ctLoop x y 0).2

/-! ## The token validator (`validateUrl` in `main.go`) -/

/-- The canonical signing string `method + ":" + filename + ":" + expires`
built by `fmt.Sprintf("%s:%s:%d", method, filename, expires)`. -/
def canonicalData (method filename : String) (expires : Int) : String :=
  method ++ ":" ++ filename ++ ":" ++ intDec expires

/-- The signature the server recomputes: lowercase hex of HMAC-SHA256 over
the canonical string with the process-wide secret key. -/
def expectedSignature (key method filename : String) (expires : Int) : String :=
  hexEncode (hmacSha256 (utf8 key) (utf8 (canonicalData method filename expires)))

/-- Shallow embedding of `validateUrl`: empty-parameter check, base-10 64-bit
parse of `expires`, expiry check `now > expires`, then `hmac.Equal` of the
supplied signature bytes against the recomputed hex digest bytes. -/
def validateUrl (key method filename expireStr signature : String) (now : Int) : Bool :=
  if expireStr = "" ∨ signature = "" then false
  else
    match parseInt64 expireStr with
    | none => false
    | some expires =>
      if now > expires then false
      else hmacEqual (utf8 signature) (utf8 (expectedSignature key method filename expires))

/-! ## Filesystem, multipart form, and fault model for the handlers -/

/-- The `file` part of a multipart form, as returned by `Request.FormFile`. -/
structure FilePart where
  filename : String
  content : List Nat
deriving DecidableEq

/-- A multipart request body; `filePart` is `none` exactly when
`Request.FormFile("file")` errors. -/
structure MultipartForm where
  filePart : Option FilePart
deriving DecidableEq

/-- Storage state: whether the upload directory exists, and the contents of
each file in it, keyed by the name joined onto the upload directory. -/
structure FS where
  dirExists : Bool
  files : String → Option (List Nat)

def FS.setFile (fs : FS) (name : String) (content : List Nat) : FS :=
  ⟨fs.dirExists, fun n => if n = name then some content else fs.files n⟩

def FS.removeFile (fs : FS) (name : String) : FS :=
  ⟨fs.dirExists, fun n => if n = name then none else fs.files n⟩

/-- Nondeterministic OS-level failures, fixed per request: whether
`os.MkdirAll`, `os.Create`, `io.Copy`, `os.Remove`, and `os.Open` fail for
reasons other than a missing file or directory. -/
structure IOFaults where
  mkdirFails : Bool
  createFails : Bool
  copyFails : Bool
  removeFails : Bool
  openFails : Bool
deriving DecidableEq

/-- The observable parts of a handler response: the status code, the
`message`/`error` JSON field, the extra JSON fields of the upload and update
responses, and the headers and body of the download response. -/
structure HttpResponse where
  status : Nat
  message : String
  filenameField : Option String := none
  originalFilenameField : Option String := none
  sizeField : Option Nat := none
  contentDisposition : Option String := none
  contentType : Option String := none
  body : Option (List Nat) := none
deriving DecidableEq

def extRev : List Char → List Char → String
  | [], _ => ""
  | c :: rest, acc =>
    if c = '/' then ""
    else if c = '.' then String.mk (c :: acc)
    else extRev rest (c :: acc)

/-- Model of `filepath.Ext`: the suffix starting at the final dot in the final
slash-separated element, or the empty string if there is no dot there. -/
def fileExt (s : String) : String := extRev s.data.reverse []

/-- Embedding of `getMimeType`: look the extension of the filename up in the
platform extension-to-MIME table (`mime.TypeByExtension`), which is passed in
as an abstract table. -/
def getMimeType (mimeTable : String → String) (filename : String) : String :=
  mimeTable (fileExt filename)

/-! ## The four resource handlers -/

/-- The `GET /images/:filename` handler body: open the file (404 on a missing
file or any open failure), then answer with the inline content-disposition
header, the MIME type looked up from the extension, and the file bytes. -/
def getHandler (fs : FS) (flt : IOFaults) (mimeTable : String → String)
    (filename : String) : HttpResponse :=
  match fs.files filename with
  | none => { status := 404, message := "File not found" }
  | some content =>
    if flt.openFails then { status := 404, message := "File not found" }
    else
      { status := 200, message := "",
        contentDisposition := some ("inline; filename=" ++ filename),
        contentType := some (getMimeType mimeTable filename),
        body := some content }

/-- The `POST /images` handler body: 400 without a `file` part; ensure the
upload directory exists, ignoring any `MkdirAll` error; create the
destination file (named by the generated identifier plus the original
extension), failing with 500 — creation in a still-missing directory fails;
copy the bytes (500 on failure); 200 with the generated name, original name
and size. -/
def postHandler (fs : FS) (flt : IOFaults) (form : MultipartForm) (uuid : String) :
    HttpResponse × FS :=
  match form.filePart with
  | none => ({ status := 400, message := "File not found in the request" }, fs)
  | some fp =>
    let fs1 : FS := if fs.dirExists then fs
                    else if flt.mkdirFails then fs else ⟨true, fs.files⟩
    let newFileName := uuid ++ fileExt fp.filename
    if fs1.dirExists = false ∨ flt.createFails then
      ({ status := 500, message := "Failed to create file." }, fs1)
    else if flt.copyFails then
      ({ status := 500, message := "Failed to save file." }, fs1.setFile newFileName [])
    else
      ({ status := 200, message := "File uploaded",
         filenameField := some newFileName,
         originalFilenameField := some fp.filename,
         sizeField := some fp.content.length }, fs1.setFile newFileName fp.content)

/-- The `PUT /images/:filename` handler body: 404 if the target file does not
exist, before the form is read; 400 without a `file` part; truncate-and-
rewrite via `os.Create` and `io.Copy`, each failing with 500; 200 with the
new size. The boolean records whether the multipart body was consumed. -/
def putHandler (fs : FS) (flt : IOFaults) (form : MultipartForm) (filename : String) :
    HttpResponse × FS × Bool :=
  match fs.files filename with
  | none => ({ status := 404, message := "File Not found." }, fs, false)
  | some _ =>
    match form.filePart with
    | none => ({ status := 400, message := "File not found in the request" }, fs, true)
    | some fp =>
      if flt.createFails then
        ({ status := 500, message := "Failed to create file." }, fs, true)
      else if flt.copyFails then
        ({ status := 500, message := "Failed to save file." }, fs.setFile filename [], true)
      else
        ({ status := 200, message := "File updated", sizeField := some fp.content.length },
         fs.setFile filename fp.content, true)

/-- The `DELETE /images/:filename` handler body: `os.Remove`, which fails
both when the file is missing and on any other removal fault, answered with a
plain 500; 200 with the removal message otherwise. -/
def deleteHandler (fs : FS) (flt : IOFaults) (filename : String) : HttpResponse × FS :=
  if fs.files filename = none ∨ flt.removeFails then
    ({ status := 500, message := "Failed to remove file." }, fs)
  else
    ({ status := 200, message := "File removed" }, fs.removeFile filename)

/-! ## Routing and the signed-URL middleware -/

inductive Op
  | opGet
  | opPost
  | opPut
  | opDelete
deriving DecidableEq

def methodName : Op → String
  | .opGet => "GET"
  | .opPost => "POST"
  | .opPut => "PUT"
  | .opDelete => "DELETE"

/-- One protected request: the routed operation, the `:filename` path
parameter (ignored by the POST route, which has none), the two query
parameters, and the multipart body. -/
structure Request where
  op : Op
  filename : String
  expires : String
  signature : String
  form : MultipartForm

/-- The filename the validator sees: the path parameter, except on the POST
route where `c.Param("filename")` is the empty string. -/
def routeFilename (r : Request) : String :=
  match r.op with
  | .opPost => ""
  | _ => r.filename

/-- Result of processing one request: the response, the final storage state,
whether the resource handler ran at all, and whether the multipart body was
consumed. -/
structure Outcome where
  response : HttpResponse
  fs : FS
  handlerEntered : Bool
  bodyConsumed : Bool

/-- `SignedURLMiddleware` composed with the routed handler: validate the
signed URL for the request method and path-derived filename; on failure
answer 403 with the one generic error message and abort, touching nothing;
on success run the matching resource handler. -/
def handleRequest (key uuid : String) (mimeTable : String → String) (now : Int)
    (flt : IOFaults) (fs : FS) (r : Request) : Outcome :=
  if validateUrl key (methodName r.op) (routeFilename r) r.expires r.signature now then
    match r.op with
    | .opGet => ⟨getHandler fs flt mimeTable r.filename, fs, true, false⟩
    | .opPost =>
      let res := postHandler fs flt r.form uuid
      ⟨res.1, res.2, true, true⟩
    | .opPut =>
      let res := putHandler fs flt r.form r.filename
      ⟨res.1, res.2.1, true, res.2.2⟩
    | .opDelete =>
      let res := deleteHandler fs flt r.filename
      ⟨res.1, res.2, true, false⟩
  else ⟨{ status := 403, message := "Invalid or expired URL" }, fs, false, false⟩

/-! ## Correctness of the constant-time comparison -/

theorem natOr_eq_zero (a b : Nat) : a ||| b = 0 ↔ a = 0 ∧ b = 0 := by
  constructor
  · intro h
    refine ⟨Nat.zero_of_testBit_eq_false fun i => ?_, Nat.zero_of_testBit_eq_false fun i => ?_⟩
    · have h2 := congrArg (fun n => n.testBit i) h
      simp [Nat.testBit_lor] at h2
      exact h2.1
    · have h2 := congrArg (fun n => n.testBit i) h
      simp [Nat.testBit_lor] at h2
      exact h2.2
  · rintro ⟨rfl, rfl⟩
    rfl

theorem ctLoop_fst_eq_zero : ∀ (xs ys : List Nat) (v : Nat), xs.length = ys.length →
    ((ctLoop xs ys v).1 = 0 ↔ v = 0 ∧ xs = ys)
  | [], [], v, _ => by simp [ctLoop]
  | [], _ :: _, v, h => by simp at h
  | _ :: _, [], v, h => by simp at h
  | x :: xs, y :: ys, v, h => by
    have ih := ctLoop_fst_eq_zero xs ys (v ||| (x ^^^ y)) (by simpa using h)
    simp only [ctLoop] at ih ⊢
    rw [ih, natOr_eq_zero, Nat.xor_eq_zero]
    constructor
    · rintro ⟨⟨rfl, rfl⟩, rfl⟩
      exact ⟨rfl, rfl⟩
    · rintro ⟨rfl, h2⟩
      have h3 := List.cons.inj h2
      exact ⟨⟨rfl, h3.1⟩, h3.2⟩

theorem ctLoop_snd : ∀ (xs ys : List Nat) (v : Nat),
    (ctLoop xs ys v).2 = min xs.length ys.length
  | [], [], v => by simp [ctLoop]
  | [], _ :: _, v => by simp [ctLoop]
  | _ :: _, [], v => by simp [ctLoop]
  | x :: xs, y :: ys, v => by
    simp only [ctLoop, List.length_cons, ctLoop_snd xs ys]
    omega

theorem ctSteps_eq_min (x y : List Nat) : ctSteps x y = min x.length y.length :=
  ctLoop_snd x y 0

theorem constantTimeByteEq_eq_one (v : Nat) (hv : v < 2147483648) :
    (constantTimeByteEq v 0 = 1) ↔ v = 0 := by
  simp only [constantTimeByteEq, Nat.xor_zero, Nat.shiftRight_eq_div_pow, M32]
  omega

theorem ctLoop_fst_lt : ∀ (xs ys : List Nat) (v : Nat),
    (∀ b ∈ xs, b < 256) → (∀ b ∈ ys, b < 256) → v < 256 → (ctLoop xs ys v).1 < 256
  | [], ys, v, _, _, hv => hv
  | x :: xs, [], v, _, _, hv => hv
  | x :: xs, y :: ys, v, hx, hy, hv => by
    simp only [ctLoop]
    refine ctLoop_fst_lt xs ys _ (fun b hb => hx b (by simp [hb])) (fun b hb => hy b (by simp [hb])) ?_
    have h256 : (256 : Nat) = 2 ^ 8 := by norm_num
    rw [h256] at hv ⊢
    exact Nat.or_lt_two_pow hv
      (Nat.xor_lt_two_pow (h256 ▸ hx x (by simp)) (h256 ▸ hy y (by simp)))

theorem hmacEqual_eq_true (x y : List Nat) (hx : ∀ b ∈ x, b < 256)
    (hy : ∀ b ∈ y, b < 256) : hmacEqual x y = true ↔ x = y := by
  unfold hmacEqual constantTimeCompare
  by_cases hl : x.length = y.length
  · rw [if_pos hl, beq_iff_eq,
      constantTimeByteEq_eq_one _ (lt_trans (ctLoop_fst_lt x y 0 hx hy (by omega)) (by omega)),
      ctLoop_fst_eq_zero x y 0 hl]
    simp
  · rw [if_neg hl]
    simp only [beq_iff_eq]
    constructor
    · omega
    · intro h
      exact absurd (congrArg List.length h) hl

theorem ctLoop_fst_self : ∀ (xs : List Nat) (v : Nat), (ctLoop xs xs v).1 = v
  | [], v => rfl
  | x :: xs, v => by
    simp only [ctLoop, Nat.xor_self, Nat.or_zero]
    exact ctLoop_fst_self xs v

theorem hmacEqual_self (x : List Nat) : hmacEqual x x = true := by
  unfold hmacEqual constantTimeCompare
  rw [if_pos rfl, ctLoop_fst_self x 0]
  decide

/-! ## Byte bounds for UTF-8 encodings -/

theorem char_toNat_lt (c : Char) : c.toNat < 1114112 := by
  have hv : c.toNat = c.val.toNat := rfl
  have h := c.valid
  rcases h with h | ⟨h1, h2⟩
  · have h3 : c.val.toNat < 55296 := h
    omega
  · have h3 : c.val.toNat < 1114112 := h2
    omega

theorem utf8Nat_lt (n : Nat) (hn : n < 1114112) : ∀ b ∈ utf8Nat n, b < 256 := by
  intro b hb
  unfold utf8Nat at hb
  split at hb
  · simp at hb
    omega
  · split at hb
    · simp at hb
      rcases hb with rfl | rfl <;> omega
    · split at hb
      · simp at hb
        rcases hb with rfl | rfl | rfl <;> omega
      · simp at hb
        rcases hb with rfl | rfl | rfl | rfl <;> omega

theorem utf8Char_lt (c : Char) : ∀ b ∈ utf8Char c, b < 256 :=
  utf8Nat_lt c.toNat (char_toNat_lt c)

theorem utf8_lt (s : String) : ∀ b ∈ utf8 s, b < 256 := by
  intro b hb
  simp only [utf8, List.mem_flatten, List.mem_map] at hb
  obtain ⟨l, ⟨c, _, rfl⟩, hbl⟩ := hb
  exact utf8Char_lt c b hbl

theorem hmacEqual_utf8 (s t : String) :
    hmacEqual (utf8 s) (utf8 t) = true ↔ utf8 s = utf8 t :=
  hmacEqual_eq_true (utf8 s) (utf8 t) (utf8_lt s) (utf8_lt t)

/-! ## Decimal digit lemmas -/

theorem digitChar_isDigit (n : Nat) (h : n < 10) : (digitChar n).isDigit = true := by
  interval_cases n <;> decide

theorem digitVal_digitChar (n : Nat) (h : n < 10) : digitVal (digitChar n) = n := by
  interval_cases n <;> decide

theorem natDigitsFuel_ne_nil (fuel n : Nat) (h : n < fuel) : natDigitsFuel fuel n ≠ [] := by
  cases fuel with
  | zero => omega
  | succ f =>
    by_cases h10 : n < 10
    · simp [natDigitsFuel, if_pos h10]
    · simp [natDigitsFuel, if_neg h10]

theorem natDigitsFuel_all_digit (fuel : Nat) : ∀ (n : Nat), n < fuel →
    ∀ c ∈ natDigitsFuel fuel n, c.isDigit = true := by
  induction fuel with
  | zero => intro n h; omega
  | succ f ih =>
    intro n h c hc
    by_cases h10 : n < 10
    · simp only [natDigitsFuel, if_pos h10, List.mem_singleton] at hc
      subst hc
      exact digitChar_isDigit n h10
    · simp only [natDigitsFuel, if_neg h10] at hc
      rcases List.mem_append.mp hc with hc1 | hc2
      · have hmul := Nat.div_mul_le_self n 10
        exact ih (n / 10) (by omega) c hc1
      · simp only [List.mem_singleton] at hc2
        subst hc2
        exact digitChar_isDigit _ (Nat.mod_lt n (by omega))

theorem foldl_natDigitsFuel (fuel : Nat) : ∀ (n a : Nat), n < fuel →
    (natDigitsFuel fuel n).foldl (fun acc c => 10 * acc + digitVal c) a
      = a * 10 ^ (natDigitsFuel fuel n).length + n := by
  induction fuel with
  | zero => intro n a h; omega
  | succ f ih =>
    intro n a h
    by_cases h10 : n < 10
    · simp only [natDigitsFuel, if_pos h10, List.foldl_cons, List.foldl_nil,
        List.length_singleton]
      rw [digitVal_digitChar n h10, pow_one]
      omega
    · have hmul := Nat.div_mul_le_self n 10
      simp only [natDigitsFuel, if_neg h10, List.foldl_append, List.length_append,
        List.foldl_cons, List.foldl_nil, List.length_singleton]
      rw [ih (n / 10) a (by omega), digitVal_digitChar _ (Nat.mod_lt n (by omega)),
        pow_succ, ← mul_assoc]
      generalize a * 10 ^ (natDigitsFuel f (n / 10)).length = m
      omega

theorem fold10_natDigits (n : Nat) : fold10 (natDigits n) = n := by
  have h := foldl_natDigitsFuel (n + 1) n 0 (by omega)
  simpa [fold10, natDigits] using h

theorem natDigits_ne_nil (n : Nat) : natDigits n ≠ [] :=
  natDigitsFuel_ne_nil (n + 1) n (by omega)

theorem natDigits_all_digit (n : Nat) : ∀ c ∈ natDigits n, c.isDigit = true :=
  natDigitsFuel_all_digit (n + 1) n (by omega)

theorem natDec_data (n : Nat) : (natDec n).data = natDigits n := rfl

theorem ne_empty_of_data_ne_nil (s : String) (h : s.data ≠ []) : s ≠ "" :=
  fun he => h (by rw [he])

theorem natDec_ne_empty (n : Nat) : natDec n ≠ "" :=
  ne_empty_of_data_ne_nil _ (by rw [natDec_data]; exact natDigits_ne_nil n)

theorem intDec_ne_empty (e : Int) : intDec e ≠ "" := by
  rw [intDec]
  by_cases he : e < 0
  · rw [if_pos he]
    refine ne_empty_of_data_ne_nil _ ?_
    rw [String.data_append]
    simp
  · rw [if_neg he]
    exact natDec_ne_empty _

/-! ## Round trip between decimal rendering and `ParseInt` -/

theorem parseInt64_natDec (n : Nat) :
    parseInt64 (natDec n)
      = if n ≤ 9223372036854775807 then some (n : Int) else none := by
  obtain ⟨c, cs, hcc⟩ := List.exists_cons_of_ne_nil (natDigits_ne_nil n)
  have hdig : c.isDigit = true := natDigits_all_digit n c (by rw [hcc]; simp)
  have hsign : ¬(c = '-' ∨ c = '+') := by
    rintro (rfl | rfl) <;> exact absurd hdig (by decide)
  have hcm : c ≠ '-' := fun hc => hsign (Or.inl hc)
  have hall : (c :: cs).all Char.isDigit = true := by
    rw [← hcc]
    exact List.all_eq_true.mpr (natDigits_all_digit n)
  have hfold : fold10 (c :: cs) = n := by rw [← hcc]; exact fold10_natDigits n
  have hdata : (natDec n).data = c :: cs := by rw [natDec_data, hcc]
  simp only [parseInt64, hdata, if_neg hsign, hall, hfold]
  simp [hcm]

theorem parseInt64_negNatDec (n : Nat) :
    parseInt64 ("-" ++ natDec n)
      = if n ≤ 9223372036854775808 then some (-(n : Int)) else none := by
  have hdata : ("-" ++ natDec n).data = '-' :: natDigits n := by
    rw [String.data_append, natDec_data]
    rfl
  have hall : (natDigits n).all Char.isDigit = true :=
    List.all_eq_true.mpr (natDigits_all_digit n)
  simp only [parseInt64, hdata]
  simp [natDigits_ne_nil n, hall, fold10_natDigits]

theorem parseInt64_intDec (e : Int) (h1 : -9223372036854775808 ≤ e)
    (h2 : e ≤ 9223372036854775807) : parseInt64 (intDec e) = some e := by
  by_cases he : e < 0
  · rw [intDec, if_pos he, parseInt64_negNatDec, if_pos (by omega)]
    congr 1
    omega
  · rw [intDec, if_neg he, parseInt64_natDec, if_pos (by omega)]
    congr 1
    omega

theorem parseInt64_intDec_some (e e3 : Int) (h : parseInt64 (intDec e) = some e3) :
    e3 = e := by
  by_cases he : e < 0
  · rw [intDec, if_pos he, parseInt64_negNatDec] at h
    split at h
    · rw [Option.some_inj] at h
      omega
    · exact Option.noConfusion h
  · rw [intDec, if_neg he, parseInt64_natDec] at h
    split at h
    · rw [Option.some_inj] at h
      omega
    · exact Option.noConfusion h

theorem parseInt64_range (s : String) (e : Int) (h : parseInt64 s = some e) :
    -9223372036854775808 ≤ e ∧ e ≤ 9223372036854775807 := by
  unfold parseInt64 at h
  split at h
  · exact absurd h (by simp)
  · dsimp only at h
    repeat' split at h
    all_goals first
      | (rw [Option.some_inj] at h; omega)
      | exact absurd h (by simp)

/-! ## Facts about the recomputed signature string -/

theorem sha256_ne_nil (msg : List Nat) : sha256 msg ≠ [] := by
  simp [sha256, be32]

theorem hmacSha256_ne_nil (key msg : List Nat) : hmacSha256 key msg ≠ [] := by
  simp only [hmacSha256]
  exact sha256_ne_nil _

theorem hexEncode_ne_empty (bs : List Nat) (h : bs ≠ []) : hexEncode bs ≠ "" := by
  obtain ⟨b, bs2, rfl⟩ := List.exists_cons_of_ne_nil h
  refine ne_empty_of_data_ne_nil _ ?_
  simp [hexEncode, hexByte]

theorem expectedSignature_ne_empty (key m f : String) (e : Int) :
    expectedSignature key m f e ≠ "" :=
  hexEncode_ne_empty _ (hmacSha256_ne_nil _ _)

theorem sha256_lt (msg : List Nat) : ∀ b ∈ sha256 msg, b < 256 := by
  intro b hb
  simp [sha256, be32, List.mem_append] at hb
  omega

theorem hmacSha256_lt (key msg : List Nat) : ∀ b ∈ hmacSha256 key msg, b < 256 := by
  simp only [hmacSha256]
  exact sha256_lt _

/-! ## ASCII strings are determined by their UTF-8 bytes -/

theorem hexDigit_ascii (n : Nat) (h : n < 16) : (hexDigit n).toNat < 128 := by
  interval_cases n <;> decide

theorem hexEncode_ascii (bs : List Nat) (hbs : ∀ b ∈ bs, b < 256) :
    ∀ c ∈ (hexEncode bs).data, c.toNat < 128 := by
  intro c hc
  simp only [hexEncode, List.mem_flatten, List.mem_map] at hc
  obtain ⟨l, ⟨b, hb, rfl⟩, hcl⟩ := hc
  have hb256 := hbs b hb
  simp only [hexByte, List.mem_cons, List.mem_singleton, List.not_mem_nil, or_false] at hcl
  rcases hcl with rfl | rfl
  · exact hexDigit_ascii _ (by omega)
  · exact hexDigit_ascii _ (Nat.mod_lt b (by omega))

theorem utf8_ascii (l : List Char) (h : ∀ c ∈ l, c.toNat < 128) :
    (l.map utf8Char).flatten = l.map Char.toNat := by
  induction l with
  | nil => rfl
  | cons c cs ih =>
    have hc : utf8Char c = [c.toNat] := by
      rw [utf8Char, utf8Nat, if_pos (h c (by simp))]
    simp only [List.map_cons, List.flatten_cons, ih (fun d hd => h d (by simp [hd])), hc]
    rfl

theorem char_toNat_inj (c d : Char) (h : c.toNat = d.toNat) : c = d :=
  Char.ext (UInt32.toNat.inj h)

theorem utf8_inj_of_ascii (s t : String) (hs : ∀ c ∈ s.data, c.toNat < 128)
    (ht : ∀ c ∈ t.data, c.toNat < 128) (h : utf8 s = utf8 t) : s = t := by
  apply String.ext
  rw [utf8, utf8, utf8_ascii _ hs, utf8_ascii _ ht] at h
  exact List.map_injective_iff.mpr (fun a b hab => char_toNat_inj a b hab) h

theorem expectedSignature_utf8_inj (key m f m2 f2 : String) (e e2 : Int)
    (h : utf8 (expectedSignature key m f e) = utf8 (expectedSignature key m2 f2 e2)) :
    expectedSignature key m f e = expectedSignature key m2 f2 e2 :=
  utf8_inj_of_ascii _ _ (hexEncode_ascii _ (hmacSha256_lt _ _))
    (hexEncode_ascii _ (hmacSha256_lt _ _)) h

/-! ## The validator specification -/

theorem validateUrl_spec (key m f es sig : String) (now : Int) :
    validateUrl key m f es sig now = true ↔
      es ≠ "" ∧ sig ≠ "" ∧ ∃ e : Int, parseInt64 es = some e ∧ now ≤ e ∧
        utf8 sig = utf8 (expectedSignature key m f e) := by
  unfold validateUrl
  by_cases hes : es = ""
  · simp [hes]
  · by_cases hsig : sig = ""
    · simp [hes, hsig]
    · rw [if_neg (by simp [hes, hsig])]
      cases hp : parseInt64 es with
      | none =>
        simp only [Bool.false_eq_true, false_iff]
        rintro ⟨-, -, e2, he2, -, -⟩
        exact Option.noConfusion he2
      | some e =>
        dsimp only
        by_cases ht : now > e
        · rw [if_pos ht]
          simp only [Bool.false_eq_true, false_iff]
          rintro ⟨-, -, e2, he2, hle, -⟩
          rw [Option.some_inj] at he2
          omega
        · rw [if_neg ht, hmacEqual_utf8]
          constructor
          · intro hu
            exact ⟨hes, hsig, e, rfl, by omega, hu⟩
          · rintro ⟨-, -, e2, he2, hle, hu⟩
            rw [Option.some_inj] at he2
            subst he2
            exact hu

/-! ## Claim theorems -/

/-- C1: on every protected route the token validator accepts if and only if
the query parameters `expires` and `signature` are both present and
non-empty, `expires` parses under base-10 64-bit integer parsing to a value
`e`, the current Unix time does not exceed `e`, and the supplied signature
byte-for-byte equals the lowercase hex encoding of HMAC-SHA256 with the
process-wide secret key over the canonical string
`method + ":" + filename + ":" + e` with `e` in standard decimal formatting;
a request failing any of these checks is rejected. -/
theorem claim1_validator_accepts_iff (key method filename expireStr signature : String)
    (now : Int) :
    validateUrl key method filename expireStr signature now = true ↔
      expireStr ≠ "" ∧ signature ≠ "" ∧ ∃ e : Int, parseInt64 expireStr = some e ∧
        now ≤ e ∧ utf8 signature =
          utf8 (hexEncode (hmacSha256 (utf8 key)
            (utf8 (method ++ ":" ++ filename ++ ":" ++ intDec e)))) :=
  validateUrl_spec key method filename expireStr signature now

/-- C2: for every correctly signed token within 64-bit range, the validator
decides exactly `now ≤ expires`: it accepts when the current time equals
`expires` and rejects precisely when the current time strictly exceeds it. -/
theorem claim2_strict_expiry (key method filename : String) (e now : Int)
    (h1 : -9223372036854775808 ≤ e) (h2 : e ≤ 9223372036854775807) :
    validateUrl key method filename (intDec e)
      (expectedSignature key method filename e) now = decide (now ≤ e) := by
  by_cases hle : now ≤ e
  · rw [decide_eq_true hle, validateUrl_spec]
    exact ⟨intDec_ne_empty e, expectedSignature_ne_empty key method filename e, e,
      parseInt64_intDec e h1 h2, hle, rfl⟩
  · rw [decide_eq_false hle]
    have hnot : ¬ validateUrl key method filename (intDec e)
        (expectedSignature key method filename e) now = true := by
      rw [validateUrl_spec]
      rintro ⟨-, -, e2, he2, hle2, -⟩
      rw [parseInt64_intDec e h1 h2, Option.some_inj] at he2
      omega
    cases hv : validateUrl key method filename (intDec e)
        (expectedSignature key method filename e) now
    · rfl
    · exact absurd hv hnot

/-- Witness for C2: the spec scenario `expires = 1999999999`, checked at the
boundary instants `now = expires` (accepted) and `now = expires + 1`
(rejected). -/
theorem claim2_strict_expiry_witness :
    (-9223372036854775808 ≤ (1999999999 : Int) ∧
      (1999999999 : Int) ≤ 9223372036854775807) ∧
    validateUrl "s3cr3t" "GET" "a.jpg" (intDec 1999999999)
      (expectedSignature "s3cr3t" "GET" "a.jpg" 1999999999) 1999999999
      = decide ((1999999999 : Int) ≤ 1999999999) ∧
    validateUrl "s3cr3t" "GET" "a.jpg" (intDec 1999999999)
      (expectedSignature "s3cr3t" "GET" "a.jpg" 1999999999) 2000000000
      = decide ((2000000000 : Int) ≤ 1999999999) :=
  ⟨⟨by decide, by decide⟩,
   claim2_strict_expiry "s3cr3t" "GET" "a.jpg" 1999999999 1999999999 (by decide) (by decide),
   claim2_strict_expiry "s3cr3t" "GET" "a.jpg" 1999999999 2000000000 (by decide) (by decide)⟩

/-- C10: the validator normalizes `expires` before signature checking — the
HMAC is recomputed over the decimal rendering of the parsed 64-bit value,
not over the supplied string — so any textual form accepted by the parser
(leading plus sign, leading zeros) validates exactly as the canonical
decimal form does. -/
theorem claim10_expires_normalized (key method filename sig s : String) (e now : Int)
    (h : parseInt64 s = some e) :
    validateUrl key method filename s sig now
      = validateUrl key method filename (intDec e) sig now := by
  obtain ⟨h1, h2⟩ := parseInt64_range s e h
  have hrt := parseInt64_intDec e h1 h2
  have hs : s ≠ "" := by
    intro he
    rw [he] at h
    have hnone : parseInt64 "" = none := rfl
    rw [hnone] at h
    exact Option.noConfusion h
  have hiff : validateUrl key method filename s sig now = true ↔
      validateUrl key method filename (intDec e) sig now = true := by
    rw [validateUrl_spec, validateUrl_spec]
    constructor
    · rintro ⟨-, hsig, e2, he2, hle, hu⟩
      rw [h, Option.some_inj] at he2
      subst he2
      exact ⟨intDec_ne_empty e, hsig, e, hrt, hle, hu⟩
    · rintro ⟨-, hsig, e2, he2, hle, hu⟩
      rw [hrt, Option.some_inj] at he2
      subst he2
      exact ⟨hs, hsig, e, h, hle, hu⟩
  cases hv1 : validateUrl key method filename s sig now <;>
    cases hv2 : validateUrl key method filename (intDec e) sig now <;>
    simp_all

/-- Witness for C10: `"+0123"` and `"0123"` both parse to `123` and validate
exactly as the canonical form `"123"` does. -/
theorem claim10_expires_normalized_witness :
    parseInt64 "+0123" = some 123 ∧ parseInt64 "0123" = some 123 ∧
    validateUrl "k" "GET" "a.jpg" "+0123" "deadbeef" 0
      = validateUrl "k" "GET" "a.jpg" (intDec 123) "deadbeef" 0 ∧
    validateUrl "k" "GET" "a.jpg" "0123" "deadbeef" 0
      = validateUrl "k" "GET" "a.jpg" (intDec 123) "deadbeef" 0 :=
  ⟨by decide, by decide,
   claim10_expires_normalized "k" "GET" "a.jpg" "deadbeef" "+0123" 123 0 (by decide),
   claim10_expires_normalized "k" "GET" "a.jpg" "deadbeef" "0123" 123 0 (by decide)⟩

/-- C3: a signed token is bound to exactly one (method, filename, expires)
triple: the validator accepts a supplied signature only when its bytes equal
the signature recomputed for the request triple, so a signature minted for
one triple is rejected on any request triple whose recomputed signature
differs — in particular on a different method with the same filename and
expiration, and on a changed filename or expiration (the digests being
different is discharged by computation in the witness); and the create
route validates with the empty string as the filename component of the
signed string. -/
theorem claim3_token_bound_to_triple :
    (∀ (key m f m2 f2 : String) (e e2 now : Int),
      expectedSignature key m2 f2 e2 ≠ expectedSignature key m f e →
      validateUrl key m2 f2 (intDec e2) (expectedSignature key m f e) now = false) ∧
    (∀ (key uuid : String) (mimeTable : String → String) (now : Int)
      (flt : IOFaults) (fs : FS) (r : Request), r.op = Op.opPost →
      ((handleRequest key uuid mimeTable now flt fs r).handlerEntered = true ↔
        validateUrl key "POST" "" r.expires r.signature now = true)) := by
  constructor
  · intro key m f m2 f2 e e2 now hne
    have hnot : ¬ validateUrl key m2 f2 (intDec e2)
        (expectedSignature key m f e) now = true := by
      rw [validateUrl_spec]
      rintro ⟨-, -, e3, he3, -, hu⟩
      obtain rfl := parseInt64_intDec_some e2 e3 he3
      exact hne (expectedSignature_utf8_inj key m f m2 f2 e e3 hu).symm
    cases hv : validateUrl key m2 f2 (intDec e2) (expectedSignature key m f e) now
    · rfl
    · exact absurd hv hnot
  · intro key uuid mimeTable now flt fs r hop
    simp only [handleRequest, hop, methodName, routeFilename]
    by_cases hv : validateUrl key "POST" "" r.expires r.signature now = true
    · simp [hv]
    · rw [Bool.not_eq_true] at hv
      simp [hv]

set_option maxRecDepth 20000 in
/-- Witness for C3: with the default secret, the signature minted for
`GET a.jpg 1999999999` is rejected when replayed as PUT, DELETE, or POST
(same filename and expiration, the POST route signing the empty filename),
and when the filename or the expiration changes; each recomputed digest is
computed in full and differs from the minted one. The final conjunct
instantiates the create-route clause on a concrete request. -/
theorem claim3_token_bound_to_triple_witness :
    (expectedSignature "secret-key" "PUT" "a.jpg" 1999999999 ≠
        expectedSignature "secret-key" "GET" "a.jpg" 1999999999 ∧
      validateUrl "secret-key" "PUT" "a.jpg" (intDec 1999999999)
        (expectedSignature "secret-key" "GET" "a.jpg" 1999999999) 0 = false) ∧
    (expectedSignature "secret-key" "DELETE" "a.jpg" 1999999999 ≠
        expectedSignature "secret-key" "GET" "a.jpg" 1999999999 ∧
      validateUrl "secret-key" "DELETE" "a.jpg" (intDec 1999999999)
        (expectedSignature "secret-key" "GET" "a.jpg" 1999999999) 0 = false) ∧
    (expectedSignature "secret-key" "POST" "" 1999999999 ≠
        expectedSignature "secret-key" "GET" "a.jpg" 1999999999 ∧
      validateUrl "secret-key" "POST" "" (intDec 1999999999)
        (expectedSignature "secret-key" "GET" "a.jpg" 1999999999) 0 = false) ∧
    (expectedSignature "secret-key" "GET" "b.jpg" 1999999999 ≠
        expectedSignature "secret-key" "GET" "a.jpg" 1999999999 ∧
      validateUrl "secret-key" "GET" "b.jpg" (intDec 1999999999)
        (expectedSignature "secret-key" "GET" "a.jpg" 1999999999) 0 = false) ∧
    (expectedSignature "secret-key" "GET" "a.jpg" 2000000000 ≠
        expectedSignature "secret-key" "GET" "a.jpg" 1999999999 ∧
      validateUrl "secret-key" "GET" "a.jpg" (intDec 2000000000)
        (expectedSignature "secret-key" "GET" "a.jpg" 1999999999) 0 = false) ∧
    ((handleRequest "secret-key" "u" (fun _ => "") 0
        ⟨false, false, false, false, false⟩ ⟨true, fun _ => none⟩
        ⟨Op.opPost, "x", "5", "sg", ⟨none⟩⟩).handlerEntered = true ↔
      validateUrl "secret-key" "POST" "" "5" "sg" 0 = true) :=
  ⟨⟨by decide, claim3_token_bound_to_triple.1 "secret-key" "GET" "a.jpg" "PUT" "a.jpg"
      1999999999 1999999999 0 (by decide)⟩,
   ⟨by decide, claim3_token_bound_to_triple.1 "secret-key" "GET" "a.jpg" "DELETE" "a.jpg"
      1999999999 1999999999 0 (by decide)⟩,
   ⟨by decide, claim3_token_bound_to_triple.1 "secret-key" "GET" "a.jpg" "POST" ""
      1999999999 1999999999 0 (by decide)⟩,
   ⟨by decide, claim3_token_bound_to_triple.1 "secret-key" "GET" "a.jpg" "GET" "b.jpg"
      1999999999 1999999999 0 (by decide)⟩,
   ⟨by decide, claim3_token_bound_to_triple.1 "secret-key" "GET" "a.jpg" "GET" "a.jpg"
      1999999999 2000000000 0 (by decide)⟩,
   claim3_token_bound_to_triple.2 "secret-key" "u" (fun _ => "") 0
     ⟨false, false, false, false, false⟩ ⟨true, fun _ => none⟩
     ⟨Op.opPost, "x", "5", "sg", ⟨none⟩⟩ rfl⟩

/-- C4: the digest comparison used by the validator is the embedded
`subtle.ConstantTimeCompare`: its loop never exits early — the number of
iterations is determined by the input lengths alone, equal for any two
input pairs of matching lengths regardless of where the first differing
byte lies, and equal to the full common length — and the comparison decides
exact byte-for-byte equality. -/
theorem claim4_constant_time_compare :
    (∀ x y x2 y2 : List Nat, x.length = x2.length → y.length = y2.length →
      ctSteps x y = ctSteps x2 y2) ∧
    (∀ x y : List Nat, x.length = y.length → ctSteps x y = x.length) ∧
    (∀ x y : List Nat, (∀ b ∈ x, b < 256) → (∀ b ∈ y, b < 256) →
      (hmacEqual x y = true ↔ x = y)) := by
  refine ⟨?_, ?_, hmacEqual_eq_true⟩
  · intro x y x2 y2 hx hy
    rw [ctSteps_eq_min, ctSteps_eq_min, hx, hy]
  · intro x y h
    rw [ctSteps_eq_min]
    omega

/-- Witness for C4: two same-length input pairs differing in content take
the same number of comparison steps, the step count is the full length, and
the comparison itself decides equality at a concrete pair. -/
theorem claim4_constant_time_compare_witness :
    ctSteps [0, 1] [2, 3] = ctSteps [7, 7] [9, 9] ∧
    ctSteps [4, 5] [6, 7] = 2 ∧
    (hmacEqual [1, 2] [1, 3] = true ↔ [1, 2] = [1, 3]) :=
  ⟨claim4_constant_time_compare.1 [0, 1] [2, 3] [7, 7] [9, 9] rfl rfl,
   claim4_constant_time_compare.2.1 [4, 5] [6, 7] rfl,
   claim4_constant_time_compare.2.2 [1, 2] [1, 3] (by decide) (by decide)⟩

/-- C5: a PUT request that passes token validation on a filename with no
stored file is answered 404 and nothing happens: the storage state is
returned unchanged and the multipart body is never consumed, so update is
not an upsert. -/
theorem claim5_put_missing_file (key uuid : String) (mimeTable : String → String)
    (now : Int) (flt : IOFaults) (fs : FS) (r : Request)
    (hop : r.op = Op.opPut)
    (hv : validateUrl key "PUT" r.filename r.expires r.signature now = true)
    (hmiss : fs.files r.filename = none) :
    handleRequest key uuid mimeTable now flt fs r =
      ⟨{ status := 404, message := "File Not found." }, fs, true, false⟩ := by
  simp [handleRequest, hop, methodName, routeFilename, hv, putHandler, hmiss]

/-- C6: a POST request that passes token validation is answered 400 exactly
when the multipart body has no `file` part; 500 exactly when the destination
file cannot be created — in particular when the upload directory was missing
and its creation failed — or when the byte copy fails; and on success 200
with the generated filename (identifier plus the original file extension),
the original filename, and the byte size. -/
theorem claim6_post_outcomes (key uuid : String) (mimeTable : String → String)
    (now : Int) (flt : IOFaults) (fs : FS) (r : Request)
    (hop : r.op = Op.opPost)
    (hv : validateUrl key "POST" "" r.expires r.signature now = true) :
    ((handleRequest key uuid mimeTable now flt fs r).response.status = 400 ↔
      r.form.filePart = none) ∧
    (∀ fp, r.form.filePart = some fp →
      ((handleRequest key uuid mimeTable now flt fs r).response.status = 500 ↔
        ((fs.dirExists = false ∧ flt.mkdirFails = true) ∨ flt.createFails = true ∨
          flt.copyFails = true))) ∧
    (∀ fp, r.form.filePart = some fp → fs.dirExists = false → flt.mkdirFails = true →
      (handleRequest key uuid mimeTable now flt fs r).response.status = 500) ∧
    (∀ fp, r.form.filePart = some fp →
      (fs.dirExists = true ∨ flt.mkdirFails = false) → flt.createFails = false →
      flt.copyFails = false →
      (handleRequest key uuid mimeTable now flt fs r).response =
        { status := 200, message := "File uploaded",
          filenameField := some (uuid ++ fileExt fp.filename),
          originalFilenameField := some fp.filename,
          sizeField := some fp.content.length }) := by
  obtain ⟨dE, files⟩ := fs
  obtain ⟨mk, cr, cp, rm, opn⟩ := flt
  cases hfp : r.form.filePart with
  | none =>
    cases dE <;> cases mk <;> cases cr <;> cases cp <;>
      simp [handleRequest, hop, methodName, routeFilename, hv, postHandler, hfp, FS.setFile]
  | some fp =>
    cases dE <;> cases mk <;> cases cr <;> cases cp <;>
      simp [handleRequest, hop, methodName, routeFilename, hv, postHandler, hfp, FS.setFile]

/-- C7: a DELETE request that passes token validation is answered with the
generic 500 removal failure whenever the filesystem removal fails — and a
missing target file is exactly such a failure, not a 404 — and with 200 and
the removal message precisely when the removal succeeds. -/
theorem claim7_delete_outcomes (key uuid : String) (mimeTable : String → String)
    (now : Int) (flt : IOFaults) (fs : FS) (r : Request)
    (hop : r.op = Op.opDelete)
    (hv : validateUrl key "DELETE" r.filename r.expires r.signature now = true) :
    (fs.files r.filename = none →
      (handleRequest key uuid mimeTable now flt fs r).response =
        { status := 500, message := "Failed to remove file." }) ∧
    ((handleRequest key uuid mimeTable now flt fs r).response.status = 500 ↔
      (fs.files r.filename = none ∨ flt.removeFails = true)) ∧
    ((handleRequest key uuid mimeTable now flt fs r).response =
        { status := 200, message := "File removed" } ↔
      ((fs.files r.filename).isSome = true ∧ flt.removeFails = false)) := by
  obtain ⟨dE, files⟩ := fs
  obtain ⟨mk, cr, cp, rm, opn⟩ := flt
  cases hf : files r.filename with
  | none =>
    cases rm <;>
      simp [handleRequest, hop, methodName, routeFilename, hv, deleteHandler, hf,
        FS.removeFile]
  | some content =>
    cases rm <;>
      simp [handleRequest, hop, methodName, routeFilename, hv, deleteHandler, hf,
        FS.removeFile]

/-- C8: a GET request that passes token validation is answered 404 when the
file is missing or cannot be opened; otherwise 200 with the inline
content-disposition header carrying the filename, the content type produced
by the extension-to-MIME lookup, and the stored bytes as the body. -/
theorem claim8_get_outcomes (key uuid : String) (mimeTable : String → String)
    (now : Int) (flt : IOFaults) (fs : FS) (r : Request)
    (hop : r.op = Op.opGet)
    (hv : validateUrl key "GET" r.filename r.expires r.signature now = true) :
    ((fs.files r.filename = none ∨ flt.openFails = true) →
      (handleRequest key uuid mimeTable now flt fs r).response =
        { status := 404, message := "File not found" }) ∧
    (∀ content, fs.files r.filename = some content → flt.openFails = false →
      (handleRequest key uuid mimeTable now flt fs r).response =
        { status := 200, message := "",
          contentDisposition := some ("inline; filename=" ++ r.filename),
          contentType := some (getMimeType mimeTable r.filename),
          body := some content }) := by
  obtain ⟨dE, files⟩ := fs
  obtain ⟨mk, cr, cp, rm, opn⟩ := flt
  cases hf : files r.filename with
  | none =>
    cases opn <;>
      simp [handleRequest, hop, methodName, routeFilename, hv, getHandler, hf]
  | some content =>
    cases opn <;>
      simp [handleRequest, hop, methodName, routeFilename, hv, getHandler, hf]

/-- C9: on every protected route, a request that fails token validation is
answered 403 with the one generic error message — the same constant for
every failed check — and the resource handler never runs: the storage state
is returned untouched and the body unconsumed, for all four operations. -/
theorem claim9_reject_is_inert (key uuid : String) (mimeTable : String → String)
    (now : Int) (flt : IOFaults) (fs : FS) (r : Request)
    (hv : validateUrl key (methodName r.op) (routeFilename r) r.expires r.signature now
      = false) :
    handleRequest key uuid mimeTable now flt fs r =
      ⟨{ status := 403, message := "Invalid or expired URL" }, fs, false, false⟩ := by
  simp [handleRequest, hv]

set_option maxRecDepth 20000 in
/-- Witness for C5: a validly signed PUT for filename `a` against an empty
store is answered 404 with the store unchanged and the body unread. -/
theorem claim5_put_missing_file_witness :
    validateUrl "k" "PUT" "a" (intDec 9) (expectedSignature "k" "PUT" "a" 9) 0 = true ∧
    (FS.mk true (fun _ => none)).files "a" = none ∧
    handleRequest "k" "u" (fun _ => "") 0 ⟨false, false, false, false, false⟩
        ⟨true, fun _ => none⟩
        ⟨Op.opPut, "a", intDec 9, expectedSignature "k" "PUT" "a" 9, ⟨none⟩⟩ =
      ⟨{ status := 404, message := "File Not found." }, ⟨true, fun _ => none⟩,
        true, false⟩ := by
  have hv : validateUrl "k" "PUT" "a" (intDec 9)
      (expectedSignature "k" "PUT" "a" 9) 0 = true := by decide
  exact ⟨hv, rfl, claim5_put_missing_file "k" "u" (fun _ => "") 0
    ⟨false, false, false, false, false⟩ ⟨true, fun _ => none⟩
    ⟨Op.opPut, "a", intDec 9, expectedSignature "k" "PUT" "a" 9, ⟨none⟩⟩ rfl hv rfl⟩

set_option maxRecDepth 20000 in
/-- Witness for C6: a validly signed POST carrying `pic.png` with three
bytes, on a fault-free store, is not a 400 (the `file` part is present) and
succeeds with the generated name, the original name, and size 3. -/
theorem claim6_post_outcomes_witness :
    validateUrl "k" "POST" "" (intDec 9) (expectedSignature "k" "POST" "" 9) 0 = true ∧
    ((handleRequest "k" "u" (fun _ => "") 0 ⟨false, false, false, false, false⟩
        ⟨true, fun _ => none⟩
        ⟨Op.opPost, "", intDec 9, expectedSignature "k" "POST" "" 9,
          ⟨some ⟨"pic.png", [1, 2, 3]⟩⟩⟩).response.status = 400 ↔
      (some (FilePart.mk "pic.png" [1, 2, 3]) = none)) ∧
    (handleRequest "k" "u" (fun _ => "") 0 ⟨false, false, false, false, false⟩
        ⟨true, fun _ => none⟩
        ⟨Op.opPost, "", intDec 9, expectedSignature "k" "POST" "" 9,
          ⟨some ⟨"pic.png", [1, 2, 3]⟩⟩⟩).response =
      { status := 200, message := "File uploaded",
        filenameField := some ("u" ++ fileExt "pic.png"),
        originalFilenameField := some "pic.png",
        sizeField := some 3 } := by
  have hv : validateUrl "k" "POST" "" (intDec 9)
      (expectedSignature "k" "POST" "" 9) 0 = true := by decide
  have happ := claim6_post_outcomes "k" "u" (fun _ => "") 0
    ⟨false, false, false, false, false⟩ ⟨true, fun _ => none⟩
    ⟨Op.opPost, "", intDec 9, expectedSignature "k" "POST" "" 9,
      ⟨some ⟨"pic.png", [1, 2, 3]⟩⟩⟩ rfl hv
  exact ⟨hv, happ.1, happ.2.2.2 ⟨"pic.png", [1, 2, 3]⟩ rfl (Or.inl rfl) rfl rfl⟩

set_option maxRecDepth 20000 in
/-- Witness for C7: with a validly signed DELETE for filename `a`, deleting
against an empty store yields the generic 500 removal failure, and deleting
a stored file with no removal fault yields exactly the 200 response. -/
theorem claim7_delete_outcomes_witness :
    validateUrl "k" "DELETE" "a" (intDec 9) (expectedSignature "k" "DELETE" "a" 9) 0
      = true ∧
    (handleRequest "k" "u" (fun _ => "") 0 ⟨false, false, false, false, false⟩
        ⟨true, fun _ => none⟩
        ⟨Op.opDelete, "a", intDec 9, expectedSignature "k" "DELETE" "a" 9, ⟨none⟩⟩).response =
      { status := 500, message := "Failed to remove file." } ∧
    ((handleRequest "k" "u" (fun _ => "") 0 ⟨false, false, false, false, false⟩
        ⟨true, fun n => if n = "a" then some [7] else none⟩
        ⟨Op.opDelete, "a", intDec 9, expectedSignature "k" "DELETE" "a" 9, ⟨none⟩⟩).response =
        { status := 200, message := "File removed" } ↔
      ((some [7] : Option (List Nat)).isSome = true ∧ false = false)) := by
  have hv : validateUrl "k" "DELETE" "a" (intDec 9)
      (expectedSignature "k" "DELETE" "a" 9) 0 = true := by decide
  refine ⟨hv, ?_, ?_⟩
  · exact (claim7_delete_outcomes "k" "u" (fun _ => "") 0
      ⟨false, false, false, false, false⟩ ⟨true, fun _ => none⟩
      ⟨Op.opDelete, "a", intDec 9, expectedSignature "k" "DELETE" "a" 9, ⟨none⟩⟩
      rfl hv).1 rfl
  · exact (claim7_delete_outcomes "k" "u" (fun _ => "") 0
      ⟨false, false, false, false, false⟩
      ⟨true, fun n => if n = "a" then some [7] else none⟩
      ⟨Op.opDelete, "a", intDec 9, expectedSignature "k" "DELETE" "a" 9, ⟨none⟩⟩
      rfl hv).2.2

set_option maxRecDepth 20000 in
/-- Witness for C8: a validly signed GET for a stored `a.png` streams the
bytes with the inline disposition header and the MIME type produced by the
lookup table, while the same request against an empty store is a 404. -/
theorem claim8_get_outcomes_witness :
    validateUrl "k" "GET" "a.png" (intDec 9) (expectedSignature "k" "GET" "a.png" 9) 0
      = true ∧
    (handleRequest "k" "u" (fun e => if e = ".png" then "image/png" else "") 0
        ⟨false, false, false, false, false⟩ ⟨true, fun _ => none⟩
        ⟨Op.opGet, "a.png", intDec 9, expectedSignature "k" "GET" "a.png" 9, ⟨none⟩⟩).response =
      { status := 404, message := "File not found" } ∧
    (handleRequest "k" "u" (fun e => if e = ".png" then "image/png" else "") 0
        ⟨false, false, false, false, false⟩
        ⟨true, fun n => if n = "a.png" then some [9, 9] else none⟩
        ⟨Op.opGet, "a.png", intDec 9, expectedSignature "k" "GET" "a.png" 9, ⟨none⟩⟩).response =
      { status := 200, message := "",
        contentDisposition := some ("inline; filename=" ++ "a.png"),
        contentType := some (getMimeType (fun e => if e = ".png" then "image/png" else "")
          "a.png"),
        body := some [9, 9] } := by
  have hv : validateUrl "k" "GET" "a.png" (intDec 9)
      (expectedSignature "k" "GET" "a.png" 9) 0 = true := by decide
  refine ⟨hv, ?_, ?_⟩
  · exact (claim8_get_outcomes "k" "u" (fun e => if e = ".png" then "image/png" else "") 0
      ⟨false, false, false, false, false⟩ ⟨true, fun _ => none⟩
      ⟨Op.opGet, "a.png", intDec 9, expectedSignature "k" "GET" "a.png" 9, ⟨none⟩⟩
      rfl hv).1 (Or.inl rfl)
  · exact (claim8_get_outcomes "k" "u" (fun e => if e = ".png" then "image/png" else "") 0
      ⟨false, false, false, false, false⟩
      ⟨true, fun n => if n = "a.png" then some [9, 9] else none⟩
      ⟨Op.opGet, "a.png", intDec 9, expectedSignature "k" "GET" "a.png" 9, ⟨none⟩⟩
      rfl hv).2 [9, 9] rfl rfl

/-- Witness for C9: a DELETE request with no `expires` parameter fails
validation and is answered 403 with the generic message, the store untouched
and the handler never entered. -/
theorem claim9_reject_is_inert_witness :
    validateUrl "k" "DELETE" "a" "" "sig" 0 = false ∧
    handleRequest "k" "u" (fun _ => "") 0 ⟨false, false, false, false, false⟩
        ⟨true, fun _ => none⟩ ⟨Op.opDelete, "a", "", "sig", ⟨none⟩⟩ =
      ⟨{ status := 403, message := "Invalid or expired URL" }, ⟨true, fun _ => none⟩,
        false, false⟩ := by
  have hv : validateUrl "k" "DELETE" "a" "" "sig" 0 = false := by decide
  exact ⟨hv, claim9_reject_is_inert "k" "u" (fun _ => "") 0
    ⟨false, false, false, false, false⟩ ⟨true, fun _ => none⟩
    ⟨Op.opDelete, "a", "", "sig", ⟨none⟩⟩ hv⟩

end ImageServer
